import Mathlib

/-!
Shallow embedding of the FarmFlow stock-deduction logic (`src/app.py`).

The `stok` (inventory) table is modelled as a list of `StokRow` records in
rowid order.  Quantities are SQLite `REAL` values fed by Python `float(...)`;
they are modelled as exact rationals (`ℚ`), which is faithful for every
property stated here (all of them are order/linear-arithmetic facts, none
depends on rounding).  Dates (`tarih`) are `TEXT` ISO strings compared by
the byte-wise BINARY collation of SQLite, modelled by the lexicographic
order on `String`.  The ambient audit context (`get_current_username`,
`datetime.now`) is passed in explicitly as `AuditFields` / `AuditCreate`.
`String.toLower` models Python `str.lower()`; the two agree on the ASCII
letters appearing in the category labels the application uses.
-/

namespace FarmFlow

/-- One row of the `stok` table (schema from `init_db` in `src/app.py`). -/
structure StokRow where
  id : Nat
  malzeme_adi : String
  kategori : String
  miktar : ℚ
  birim : String
  tarih : String
  depo : String
  min_stok : ℚ
  maliyet : ℚ
  notlar : Option String
  created_by : String
  modified_by : String
  modified_at : String
deriving DecidableEq

/-- Result of `add_audit_fields_for_update()`: ambient username and timestamp. -/
structure AuditFields where
  modified_by : String
  modified_at : String
deriving DecidableEq

/-- Result of `add_audit_fields_for_create()`. -/
structure AuditCreate where
  created_by : String
  modified_by : String
  modified_at : String
deriving DecidableEq

/-- The `WHERE kategori = ? AND miktar >= ?` filter of the row-selection
query inside `deduct_stock_item`. -/
def stokMatch (kategori : String) (miktar : ℚ) (r : StokRow) : Bool :=
  decide (r.kategori = kategori ∧ miktar ≤ r.miktar)

/-- `ORDER BY tarih ASC LIMIT 1`: the first row carrying the minimal `tarih`
value (SQLite leaves ties unspecified; keeping the earliest-stored row is one
faithful refinement). -/
def pickEarliest : List StokRow → Option StokRow
  | [] => none
  | r :: rs =>
      match pickEarliest rs with
      | none => some r
      | some b => if b.tarih < r.tarih then some b else some r

/-- The row-selection query of `deduct_stock_item` (src/app.py lines 344-351). -/
def selectRow (stok : List StokRow) (kategori : String) (miktar : ℚ) :
    Option StokRow :=
  pickEarliest (stok.filter (stokMatch kategori miktar))

/-- The `notlar` update expression of the SQL `UPDATE` in `deduct_stock_item`:
coalesce the notes to the empty string, then concatenate the description,
preceded by a semicolon-space separator when the notes were non-empty. -/
def appendNote (notlar : Option String) (d : String) : String :=
  notlar.getD "" ++ (if notlar.getD "" = "" then d else "; " ++ d)

/-- Per-row effect of the `UPDATE stok ... WHERE id = ?` statement of
`deduct_stock_item`, with `item` the fetched row and `miktar` the requested
amount (new_quantity = item.miktar - miktar). -/
def applyDeduct (audit : AuditFields) (item : StokRow) (miktar : ℚ)
    (d : String) (r : StokRow) : StokRow :=
  if r.id = item.id then
    { r with
      miktar := item.miktar - miktar
      modified_by := audit.modified_by
      modified_at := audit.modified_at
      notlar := some (appendNote r.notlar d) }
  else r

/-- The failure message of `deduct_stock_item`: the word Yetersiz, the
lower-cased category, and the required amount. -/
def yetersizMessage (kategori : String) (miktar : ℚ) : String :=
  "Yetersiz " ++ kategori.toLower ++ " stoku (gerekli: " ++ toString miktar ++ ")"

/-- The success message of `deduct_stock_item`: the amount, the unit
(birim) and the material name (malzeme_adi), then stoktan düşüldü. -/
def successMessage (miktar : ℚ) (birim malzeme_adi : String) : String :=
  toString miktar ++ " " ++ birim ++ " " ++ malzeme_adi ++ " stoktan düşüldü"

/-- Return value of `deduct_stock_item` (the `(bool, message)` pair) together
with the resulting `stok` table. -/
structure DeductResult where
  success : Bool
  message : String
  stok : List StokRow
deriving DecidableEq

/-- `deduct_stock_item(conn, kategori, miktar, operation_description)`
(src/app.py lines 338-374): fetch one row of the category with
`miktar >= requested`, ordered by `tarih`; on a hit, update that row
(quantity decrement, note append, audit stamp); otherwise report failure
and leave the table untouched. -/
def deduct_stock_item (stok : List StokRow) (audit : AuditFields)
    (kategori : String) (miktar : ℚ) (operation_description : String) :
    DeductResult :=
  match selectRow stok kategori miktar with
  | none => ⟨false, yetersizMessage kategori miktar, stok⟩
  | some item =>
      ⟨true, successMessage miktar item.birim item.malzeme_adi,
        stok.map (applyDeduct audit item miktar operation_description)⟩

/-- Return value of `batch_deduct_stock` (`(bool, results)`) together with the
resulting `stok` table. -/
structure BatchResult where
  success : Bool
  results : List (Bool × String)
  stok : List StokRow
deriving DecidableEq

/-- `batch_deduct_stock(conn, deductions)` (src/app.py lines 376-388):
process the `(kategori, miktar, description)` tuples in order, skipping
entries with `miktar <= 0`, appending a `(success, message)` pair for each
processed entry, and stopping at the first failure. -/
def batch_deduct_stock (audit : AuditFields) :
    List StokRow → List (String × ℚ × String) → BatchResult
  | stok, [] => ⟨true, [], stok⟩
  | stok, (kategori, miktar, d) :: rest =>
      if 0 < miktar then
        let r := deduct_stock_item stok audit kategori miktar d
        if r.success then
          let b := batch_deduct_stock audit r.stok rest
          ⟨b.success, (r.success, r.message) :: b.results, b.stok⟩
        else ⟨false, [(r.success, r.message)], r.stok⟩
      else batch_deduct_stock audit stok rest

/-- Total stock quantity of one category (`SUM(miktar)` over the rows whose
`kategori` matches). -/
def categoryTotal (stok : List StokRow) (kategori : String) : ℚ :=
  ((stok.filter fun r => decide (r.kategori = kategori)).map StokRow.miktar).sum

/-- Form fields of a POST to the `/stok` handler (already stripped, numeric
fields already parsed). -/
structure StokForm where
  malzeme_adi : String
  kategori : String
  miktar : ℚ
  birim : String
  depo : String
  min_stok : ℚ
  maliyet : ℚ
  notlar : String
  islem_turu : String
deriving DecidableEq

/-- `AUTOINCREMENT` id for a freshly inserted `stok` row. -/
def nextStokId (stok : List StokRow) : Nat :=
  (stok.map StokRow.id).foldr max 0 + 1

/-- The POST branch of the `/stok` handler (src/app.py lines 710-767):
look up an existing row by `(malzeme_adi, depo)`; `cikar` subtracts with a
negativity guard, `ekle` on an existing row adds unconditionally, and any
other case inserts a fresh row with the submitted quantity.  Returns the new
table and the flash message. -/
def stok_post (stok : List StokRow) (auditC : AuditCreate)
    (today : String) (f : StokForm) : List StokRow × String :=
  if f.malzeme_adi = "" then
    (stok, "Malzeme adı zorunludur!")
  else
    match stok.find? fun r => decide (r.malzeme_adi = f.malzeme_adi ∧ r.depo = f.depo) with
    | some mevcut =>
        if f.islem_turu = "cikar" then
          let yeni := mevcut.miktar - f.miktar
          if yeni < 0 then
            (stok, "Yetersiz stok! Mevcut miktar: " ++ toString mevcut.miktar)
          else
            (stok.map fun r =>
              if r.id = mevcut.id then
                { r with
                  miktar := yeni
                  modified_by := auditC.modified_by
                  modified_at := auditC.modified_at }
              else r,
             "Stok çıkarıldı!")
        else if f.islem_turu = "ekle" then
          (stok.map fun r =>
            if r.id = mevcut.id then
              { r with
                miktar := mevcut.miktar + f.miktar
                maliyet := f.maliyet
                min_stok := f.min_stok
                notlar := some f.notlar
                modified_by := auditC.modified_by
                modified_at := auditC.modified_at }
            else r,
           "Stok güncellendi!")
        else
          (stok ++ [⟨nextStokId stok, f.malzeme_adi, f.kategori, f.miktar,
            f.birim, today, f.depo, f.min_stok, f.maliyet, some f.notlar,
            auditC.created_by, auditC.modified_by, auditC.modified_at⟩],
           "Yeni stok kaydı eklendi!")
    | none =>
        (stok ++ [⟨nextStokId stok, f.malzeme_adi, f.kategori, f.miktar,
          f.birim, today, f.depo, f.min_stok, f.maliyet, some f.notlar,
          auditC.created_by, auditC.modified_by, auditC.modified_at⟩],
         "Yeni stok kaydı eklendi!")

/-- One row of the `sulama` (irrigation) table. -/
structure SulamaRow where
  tarih : String
  saat : String
  sera_adi : String
  sulama_turu : String
  miktar : ℚ
  gubre_kimyasal : String
  gubre_miktari : ℚ
  personel : String
  notlar : String
  created_by : String
  modified_by : String
  modified_at : String
deriving DecidableEq

/-- Form fields of a single-entry POST to `/sulama` (stripped and parsed). -/
structure SulamaForm where
  tarih : String
  saat : String
  sera_adi : String
  sulama_turu : String
  miktar : ℚ
  gubre_kimyasal : String
  gubre_miktari : ℚ
  personel : String
  notlar : String
deriving DecidableEq

/-- The relevant database state for the `/sulama` handler. -/
structure DB where
  stok : List StokRow
  sulama : List SulamaRow
deriving DecidableEq

/-- Description string attached to the sulama stock deduction: Sulama
kullanımı, the date, and the greenhouse name, dash-separated. -/
def sulamaDesc (f : SulamaForm) : String :=
  "Sulama kullanımı - " ++ f.tarih ++ " - " ++ f.sera_adi

/-- The deduction list assembled by the single-entry `/sulama` branch
(src/app.py lines 1302-1308). -/
def sulamaDeductions (f : SulamaForm) : List (String × ℚ × String) :=
  if 0 < f.gubre_miktari ∧ f.gubre_kimyasal ≠ "" then
    if f.sulama_turu = "Gübreli" then
      [("Gübre", f.gubre_miktari, sulamaDesc f)]
    else if f.sulama_turu = "İlaçlı" then
      [("Pestisit", f.gubre_miktari, sulamaDesc f),
       ("Kimyasal", f.gubre_miktari, sulamaDesc f)]
    else []
  else []

/-- The single-entry POST branch of the `/sulama` handler (src/app.py lines
1286-1337): validate, run the stock deductions, and either insert the
irrigation record and commit, or roll the transaction back (restoring the
state at the start of the request). -/
def sulama_post (db : DB) (auditC : AuditCreate) (f : SulamaForm) :
    DB × Bool × String :=
  if f.sera_adi = "" ∨ f.personel = "" ∨ f.tarih = "" ∨ f.miktar ≤ 0 then
    (db, false, "Sera adı, personel, tarih ve miktar zorunludur!")
  else
    let b := batch_deduct_stock ⟨auditC.modified_by, auditC.modified_at⟩
      db.stok (sulamaDeductions f)
    if b.success then
      ({ stok := b.stok
         sulama := db.sulama ++
           [⟨f.tarih, f.saat, f.sera_adi, f.sulama_turu, f.miktar,
             f.gubre_kimyasal, f.gubre_miktari, f.personel, f.notlar,
             auditC.created_by, auditC.modified_by, auditC.modified_at⟩] },
       true, "Sulama kaydı başarıyla eklendi!")
    else
      (db, false,
       "Stok yetersiz: " ++
         String.intercalate ", "
           (((b.results.filter fun p => p.1 = false).map Prod.snd)))

/-- A public-interface operation touching the `stok` table: a `/stok` POST, a
single stock deduction, or a batch deduction. -/
inductive Op where
  | post (auditC : AuditCreate) (today : String) (f : StokForm)
  | deduct (audit : AuditFields) (kategori : String) (miktar : ℚ) (d : String)
  | batch (audit : AuditFields) (ds : List (String × ℚ × String))
deriving DecidableEq

/-- Effect of one operation on the `stok` table. -/
def applyOp (stok : List StokRow) : Op → List StokRow
  | .post auditC today f => (stok_post stok auditC today f).1
  | .deduct audit kategori miktar d =>
      (deduct_stock_item stok audit kategori miktar d).stok
  | .batch audit ds => (batch_deduct_stock audit stok ds).stok

/-- Invariant: every inventory row carries a non-negative quantity. -/
def StokNonneg (stok : List StokRow) : Prop :=
  ∀ r ∈ stok, 0 ≤ r.miktar

instance (stok : List StokRow) : Decidable (StokNonneg stok) :=
  List.decidableBAll _ stok

/-- Guard on an operation: a `/stok` POST submits a non-negative quantity;
the deduction helpers need no guard. -/
def OpOK : Op → Prop
  | .post _ _ f => 0 ≤ f.miktar
  | .deduct _ _ _ _ => True
  | .batch _ _ => True

instance (op : Op) : Decidable (OpOK op) := by
  cases op <;> simp only [OpOK] <;> infer_instance

/-! ### Facts about the row-selection query -/

theorem pickEarliest_mem :
    ∀ {l : List StokRow} {r : StokRow}, pickEarliest l = some r → r ∈ l
  | [], r, h => by simp [pickEarliest] at h
  | x :: xs, r, h => by
      simp only [pickEarliest] at h
      cases hx : pickEarliest xs with
      | none =>
          rw [hx] at h
          cases h
          exact List.mem_cons_self _ _
      | some b =>
          rw [hx] at h
          dsimp only at h
          by_cases hb : b.tarih < x.tarih
          · rw [if_pos hb] at h
            cases h
            exact List.mem_cons_of_mem _ (pickEarliest_mem hx)
          · rw [if_neg hb] at h
            cases h
            exact List.mem_cons_self _ _

theorem pickEarliest_eq_none {l : List StokRow} :
    pickEarliest l = none ↔ l = [] := by
  cases l with
  | nil => simp [pickEarliest]
  | cons x xs =>
      simp only [pickEarliest]
      constructor
      · intro h
        cases hx : pickEarliest xs with
        | none => rw [hx] at h; cases h
        | some b =>
            rw [hx] at h
            dsimp only at h
            by_cases hb : b.tarih < x.tarih
            · rw [if_pos hb] at h; cases h
            · rw [if_neg hb] at h; cases h
      · intro h; cases h

theorem pickEarliest_min :
    ∀ {l : List StokRow} {r : StokRow}, pickEarliest l = some r →
      ∀ c ∈ l, r.tarih ≤ c.tarih
  | [], r, h => by simp [pickEarliest] at h
  | x :: xs, r, h => by
      simp only [pickEarliest] at h
      cases hx : pickEarliest xs with
      | none =>
          rw [hx] at h
          cases h
          intro c hc
          rcases List.mem_cons.mp hc with rfl | hc
          · exact le_refl _
          · rw [pickEarliest_eq_none.mp hx] at hc
            cases hc
      | some b =>
          rw [hx] at h
          dsimp only at h
          by_cases hb : b.tarih < x.tarih
          · rw [if_pos hb] at h
            cases h
            intro c hc
            rcases List.mem_cons.mp hc with rfl | hc
            · exact le_of_lt hb
            · exact pickEarliest_min hx c hc
          · rw [if_neg hb] at h
            cases h
            intro c hc
            rcases List.mem_cons.mp hc with rfl | hc
            · exact le_refl _
            · exact le_trans (not_lt.mp hb) (pickEarliest_min hx c hc)

theorem selectRow_mem {stok : List StokRow} {k : String} {q : ℚ} {r : StokRow}
    (h : selectRow stok k q = some r) :
    r ∈ stok ∧ r.kategori = k ∧ q ≤ r.miktar := by
  have hm := pickEarliest_mem h
  have hf := List.mem_filter.mp hm
  refine ⟨hf.1, ?_⟩
  have := hf.2
  simp only [stokMatch, decide_eq_true_eq] at this
  exact this

theorem selectRow_min {stok : List StokRow} {k : String} {q : ℚ} {r : StokRow}
    (h : selectRow stok k q = some r) :
    ∀ c ∈ stok, c.kategori = k → q ≤ c.miktar → r.tarih ≤ c.tarih := by
  intro c hc hck hcq
  refine pickEarliest_min h c (List.mem_filter.mpr ⟨hc, ?_⟩)
  simp [stokMatch, hck, hcq]

theorem selectRow_eq_none_iff {stok : List StokRow} {k : String} {q : ℚ} :
    selectRow stok k q = none ↔ ∀ r ∈ stok, r.kategori = k → r.miktar < q := by
  unfold selectRow
  constructor
  · intro h r hr hrk
    have hnil := pickEarliest_eq_none.mp h
    have := List.filter_eq_nil_iff.mp hnil r hr
    simp only [stokMatch, decide_eq_true_eq, not_and] at this
    exact not_le.mp (this hrk)
  · intro h
    rw [List.filter_eq_nil_iff.mpr ?_]
    · rfl
    · intro r hr
      simp only [stokMatch, decide_eq_true_eq, not_and]
      intro hrk
      exact not_le.mpr (h r hr hrk)

theorem selectRow_isSome {stok : List StokRow} {k : String} {q : ℚ}
    (hex : ∃ r ∈ stok, r.kategori = k ∧ q ≤ r.miktar) :
    ∃ item, selectRow stok k q = some item := by
  cases hs : selectRow stok k q with
  | none =>
      obtain ⟨r, hr, hrk, hrq⟩ := hex
      exact absurd hrq (not_le.mpr (selectRow_eq_none_iff.mp hs r hr hrk))
  | some item => exact ⟨item, rfl⟩

/-! ### Basic facts about `deduct_stock_item` -/

theorem deduct_of_selectRow_none {stok : List StokRow} {audit : AuditFields}
    {k : String} {q : ℚ} {d : String} (h : selectRow stok k q = none) :
    deduct_stock_item stok audit k q d = ⟨false, yetersizMessage k q, stok⟩ := by
  unfold deduct_stock_item
  rw [h]

theorem deduct_of_selectRow_some {stok : List StokRow} {audit : AuditFields}
    {k : String} {q : ℚ} {d : String} {item : StokRow}
    (h : selectRow stok k q = some item) :
    deduct_stock_item stok audit k q d =
      ⟨true, successMessage q item.birim item.malzeme_adi,
        stok.map (applyDeduct audit item q d)⟩ := by
  unfold deduct_stock_item
  rw [h]

theorem deduct_success_iff {stok : List StokRow} {audit : AuditFields}
    {k : String} {q : ℚ} {d : String} :
    (deduct_stock_item stok audit k q d).success = true ↔
      ∃ item, selectRow stok k q = some item := by
  cases hs : selectRow stok k q with
  | none => simp [deduct_of_selectRow_none hs]
  | some item => simp [deduct_of_selectRow_some hs, hs]

theorem deduct_stok_of_fail {stok : List StokRow} {audit : AuditFields}
    {k : String} {q : ℚ} {d : String}
    (h : (deduct_stock_item stok audit k q d).success = false) :
    (deduct_stock_item stok audit k q d).stok = stok := by
  cases hs : selectRow stok k q with
  | none => rw [deduct_of_selectRow_none hs]
  | some item => rw [deduct_of_selectRow_some hs] at h ⊢; cases h

theorem applyDeduct_kategori (audit : AuditFields) (item : StokRow) (q : ℚ)
    (d : String) (r : StokRow) :
    (applyDeduct audit item q d r).kategori = r.kategori := by
  unfold applyDeduct
  split <;> rfl

theorem applyDeduct_of_id_ne {audit : AuditFields} {item : StokRow} {q : ℚ}
    {d : String} {r : StokRow} (h : r.id ≠ item.id) :
    applyDeduct audit item q d r = r := by
  unfold applyDeduct
  rw [if_neg h]

/-! ### Unfolding equations for `batch_deduct_stock` -/

theorem batch_nil (audit : AuditFields) (stok : List StokRow) :
    batch_deduct_stock audit stok [] = ⟨true, [], stok⟩ := rfl

theorem batch_cons_skip {audit : AuditFields} {stok : List StokRow}
    {k : String} {q : ℚ} {d : String} {rest : List (String × ℚ × String)}
    (hq : ¬ 0 < q) :
    batch_deduct_stock audit stok ((k, q, d) :: rest) =
      batch_deduct_stock audit stok rest := by
  simp only [batch_deduct_stock]
  rw [if_neg hq]

theorem batch_cons_pos {audit : AuditFields} {stok : List StokRow}
    {k : String} {q : ℚ} {d : String} {rest : List (String × ℚ × String)}
    (hq : 0 < q) (hs : (deduct_stock_item stok audit k q d).success = true) :
    batch_deduct_stock audit stok ((k, q, d) :: rest) =
      ⟨(batch_deduct_stock audit (deduct_stock_item stok audit k q d).stok rest).success,
       (true, (deduct_stock_item stok audit k q d).message) ::
         (batch_deduct_stock audit (deduct_stock_item stok audit k q d).stok rest).results,
       (batch_deduct_stock audit (deduct_stock_item stok audit k q d).stok rest).stok⟩ := by
  simp [batch_deduct_stock, hq, hs]

theorem batch_cons_fail {audit : AuditFields} {stok : List StokRow}
    {k : String} {q : ℚ} {d : String} {rest : List (String × ℚ × String)}
    (hq : 0 < q) (hs : (deduct_stock_item stok audit k q d).success = false) :
    batch_deduct_stock audit stok ((k, q, d) :: rest) =
      ⟨false, [(false, (deduct_stock_item stok audit k q d).message)],
       (deduct_stock_item stok audit k q d).stok⟩ := by
  simp [batch_deduct_stock, hq, hs]

theorem batch_append {audit : AuditFields} {ds2 : List (String × ℚ × String)} :
    ∀ {stok : List StokRow} {ds1 : List (String × ℚ × String)},
      (batch_deduct_stock audit stok ds1).success = true →
      batch_deduct_stock audit stok (ds1 ++ ds2) =
        ⟨(batch_deduct_stock audit (batch_deduct_stock audit stok ds1).stok ds2).success,
         (batch_deduct_stock audit stok ds1).results ++
           (batch_deduct_stock audit (batch_deduct_stock audit stok ds1).stok ds2).results,
         (batch_deduct_stock audit (batch_deduct_stock audit stok ds1).stok ds2).stok⟩
  | stok, [], _ => by simp [batch_nil]
  | stok, (k, q, d) :: tl, h => by
      by_cases hq : 0 < q
      · by_cases hs : (deduct_stock_item stok audit k q d).success = true
        · have hrec :
              (batch_deduct_stock audit (deduct_stock_item stok audit k q d).stok tl).success
                = true := by
            rw [batch_cons_pos hq hs] at h
            exact h
          rw [List.cons_append, batch_cons_pos hq hs, batch_cons_pos hq hs,
            batch_append hrec]
          simp
        · have hs2 : (deduct_stock_item stok audit k q d).success = false := by
            cases h2 : (deduct_stock_item stok audit k q d).success with
            | true => exact absurd h2 hs
            | false => rfl
          rw [batch_cons_fail hq hs2] at h
          simp at h
      · rw [batch_cons_skip hq] at h
        rw [List.cons_append, batch_cons_skip hq, batch_cons_skip hq]
        exact batch_append h

/-! ### The quantity decrement seen by a category total -/

theorem sum_map_applyDeduct {audit : AuditFields} {q : ℚ} {d : String} :
    ∀ {l : List StokRow} {item : StokRow},
      (l.map StokRow.id).Nodup → item ∈ l →
      ((l.map (applyDeduct audit item q d)).map StokRow.miktar).sum =
        (l.map StokRow.miktar).sum - q
  | [], item, _, hm => absurd hm (List.not_mem_nil _)
  | x :: xs, item, hn, hm => by
      rw [List.map_cons, List.nodup_cons] at hn
      rcases List.mem_cons.mp hm with rfl | hm2
      · have hxs : xs.map (applyDeduct audit item q d) = xs := by
          have hne : ∀ r ∈ xs, applyDeduct audit item q d r = id r := by
            intro r hr
            refine applyDeduct_of_id_ne fun he => hn.1 ?_
            exact he ▸ List.mem_map.mpr ⟨r, hr, rfl⟩
          rw [List.map_congr_left hne, List.map_id]
        have hx : (applyDeduct audit item q d item).miktar = item.miktar - q := by
          simp [applyDeduct]
        rw [List.map_cons, List.map_cons, List.map_cons, List.sum_cons,
          List.sum_cons, hxs, hx]
        ring
      · have hxid : x.id ≠ item.id := by
          intro he
          exact hn.1 (he ▸ List.mem_map.mpr ⟨item, hm2, rfl⟩)
        rw [List.map_cons, List.map_cons, List.map_cons,
          applyDeduct_of_id_ne hxid, List.sum_cons, List.sum_cons,
          sum_map_applyDeduct hn.2 hm2]
        ring

theorem categoryTotal_deduct {stok : List StokRow} {audit : AuditFields}
    {k : String} {q : ℚ} {d : String} {item : StokRow}
    (hn : (stok.map StokRow.id).Nodup)
    (hsel : selectRow stok k q = some item) :
    categoryTotal (stok.map (applyDeduct audit item q d)) k =
      categoryTotal stok k - q := by
  obtain ⟨hm, hk, _⟩ := selectRow_mem hsel
  unfold categoryTotal
  rw [List.filter_map]
  have hfc :
      stok.filter ((fun r => decide (r.kategori = k)) ∘ applyDeduct audit item q d)
        = stok.filter fun r => decide (r.kategori = k) := by
    apply List.filter_congr
    intro r _
    simp [Function.comp, applyDeduct_kategori]
  rw [hfc]
  apply sum_map_applyDeduct
  · exact ((List.filter_sublist stok).map StokRow.id).nodup hn
  · exact List.mem_filter.mpr ⟨hm, by simp [hk]⟩

/-! ### Non-negativity preservation -/

theorem deduct_nonneg {stok : List StokRow} {audit : AuditFields}
    {k : String} {q : ℚ} {d : String} (h : StokNonneg stok) :
    StokNonneg (deduct_stock_item stok audit k q d).stok := by
  cases hs : selectRow stok k q with
  | none =>
      rw [deduct_of_selectRow_none hs]
      exact h
  | some item =>
      rw [deduct_of_selectRow_some hs]
      intro r2 hr2
      obtain ⟨r, hr, rfl⟩ := List.mem_map.mp hr2
      unfold applyDeduct
      split
      · have hq := (selectRow_mem hs).2.2
        show (0 : ℚ) ≤ item.miktar - q
        linarith
      · exact h r hr

theorem batch_nonneg {audit : AuditFields} :
    ∀ {stok : List StokRow} {ds : List (String × ℚ × String)},
      StokNonneg stok → StokNonneg (batch_deduct_stock audit stok ds).stok
  | _, [], h => h
  | stok, (k, q, d) :: tl, h => by
      by_cases hq : 0 < q
      · by_cases hs : (deduct_stock_item stok audit k q d).success = true
        · rw [batch_cons_pos hq hs]
          exact batch_nonneg (deduct_nonneg h)
        · have hs2 : (deduct_stock_item stok audit k q d).success = false := by
            cases h2 : (deduct_stock_item stok audit k q d).success with
            | true => exact absurd h2 hs
            | false => rfl
          rw [batch_cons_fail hq hs2]
          exact deduct_nonneg h
      · rw [batch_cons_skip hq]
        exact batch_nonneg h

theorem stok_post_nonneg {stok : List StokRow} {auditC : AuditCreate}
    {today : String} {f : StokForm} (h : StokNonneg stok)
    (hf : 0 ≤ f.miktar) :
    StokNonneg (stok_post stok auditC today f).1 := by
  unfold stok_post
  by_cases h0 : f.malzeme_adi = ""
  · rw [if_pos h0]
    exact h
  · rw [if_neg h0]
    cases hm : stok.find? fun r =>
        decide (r.malzeme_adi = f.malzeme_adi ∧ r.depo = f.depo) with
    | some mevcut =>
        dsimp only
        by_cases hc : f.islem_turu = "cikar"
        · rw [if_pos hc]
          by_cases hneg : mevcut.miktar - f.miktar < 0
          · rw [if_pos hneg]
            exact h
          · rw [if_neg hneg]
            intro r2 hr2
            obtain ⟨r, hr, rfl⟩ := List.mem_map.mp hr2
            split
            · show (0 : ℚ) ≤ mevcut.miktar - f.miktar
              exact not_lt.mp hneg
            · exact h r hr
        · rw [if_neg hc]
          by_cases he : f.islem_turu = "ekle"
          · rw [if_pos he]
            intro r2 hr2
            obtain ⟨r, hr, rfl⟩ := List.mem_map.mp hr2
            split
            · have hmev := h mevcut (List.mem_of_find?_eq_some hm)
              show (0 : ℚ) ≤ mevcut.miktar + f.miktar
              linarith
            · exact h r hr
          · rw [if_neg he]
            intro r2 hr2
            rcases List.mem_append.mp hr2 with hr | hr
            · exact h r2 hr
            · rw [List.mem_singleton.mp hr]
              exact hf
    | none =>
        dsimp only
        intro r2 hr2
        rcases List.mem_append.mp hr2 with hr | hr
        · exact h r2 hr
        · rw [List.mem_singleton.mp hr]
          exact hf

theorem applyOp_nonneg {stok : List StokRow} {op : Op}
    (h : StokNonneg stok) (hok : OpOK op) :
    StokNonneg (applyOp stok op) := by
  cases op with
  | post auditC today f => exact stok_post_nonneg h hok
  | deduct audit k q d => exact deduct_nonneg h
  | batch audit ds => exact batch_nonneg h

theorem deduct_success_false {r : DeductResult} (h : ¬ r.success = true) :
    r.success = false := by
  cases h2 : r.success with
  | true => exact absurd h2 h
  | false => rfl

theorem row_eq_of_id_eq {stok : List StokRow} (hn : (stok.map StokRow.id).Nodup)
    {r s : StokRow} (hr : r ∈ stok) (hs : s ∈ stok) (h : r.id = s.id) : r = s :=
  List.inj_on_of_nodup_map hn hr hs h

theorem id_index_unique {stok : List StokRow} (hn : (stok.map StokRow.id).Nodup)
    {i j : ℕ} (hi : i < stok.length) (hj : j < stok.length)
    (h : (stok.get ⟨i, hi⟩).id = (stok.get ⟨j, hj⟩).id) : i = j := by
  have hi2 : i < (stok.map StokRow.id).length := by simpa using hi
  have hj2 : j < (stok.map StokRow.id).length := by simpa using hj
  have hIJ : (stok.map StokRow.id).get ⟨i, hi2⟩ = (stok.map StokRow.id).get ⟨j, hj2⟩ := by
    simp only [List.get_eq_getElem, List.getElem_map]
    simpa using h
  have := (List.Nodup.get_inj_iff hn).mp hIJ
  exact congrArg Fin.val this

/-! ### The claims -/

/-- C1: for every inventory state and category, a single deduction request
for a positive quantity `q` that some row of the category can satisfy
(its quantity ≥ q) succeeds, and the quantity summed over the category
decreases by exactly `q`; a request exceeding the quantity of every
individual row in the category fails and leaves every row unchanged. -/
theorem claim_C1 (stok : List StokRow) (audit : AuditFields) (k : String)
    (q : ℚ) (d : String) (hn : (stok.map StokRow.id).Nodup) (_hq : 0 < q) :
    ((∃ r ∈ stok, r.kategori = k ∧ q ≤ r.miktar) →
      (deduct_stock_item stok audit k q d).success = true ∧
      categoryTotal (deduct_stock_item stok audit k q d).stok k =
        categoryTotal stok k - q) ∧
    ((∀ r ∈ stok, r.kategori = k → r.miktar < q) →
      (deduct_stock_item stok audit k q d).success = false ∧
      (deduct_stock_item stok audit k q d).stok = stok) := by
  constructor
  · intro hex
    obtain ⟨item, hsel⟩ := selectRow_isSome hex
    rw [deduct_of_selectRow_some hsel]
    exact ⟨rfl, categoryTotal_deduct hn hsel⟩
  · intro hall
    rw [deduct_of_selectRow_none (selectRow_eq_none_iff.mpr hall)]
    exact ⟨rfl, rfl⟩

/-- C2: deduction selection is deterministic first-in-first-out by entry
date: whenever some row of the category has sufficient quantity, the row
selected (and updated by `deduct_stock_item`) is a sufficient row of the
category whose `tarih` is minimal among all sufficient rows of the category
— in particular, of two sufficient rows the one with the earlier record
date is chosen. -/
theorem claim_C2 (stok : List StokRow) (audit : AuditFields) (k : String)
    (q : ℚ) (d : String)
    (hex : ∃ r ∈ stok, r.kategori = k ∧ q ≤ r.miktar) :
    ∃ r, selectRow stok k q = some r ∧ r ∈ stok ∧ r.kategori = k ∧
      q ≤ r.miktar ∧
      (∀ c ∈ stok, c.kategori = k → q ≤ c.miktar → r.tarih ≤ c.tarih) ∧
      deduct_stock_item stok audit k q d =
        ⟨true, successMessage q r.birim r.malzeme_adi,
          stok.map (applyDeduct audit r q d)⟩ := by
  obtain ⟨item, hsel⟩ := selectRow_isSome hex
  obtain ⟨hm, hk, hq⟩ := selectRow_mem hsel
  exact ⟨item, hsel, hm, hk, hq, selectRow_min hsel,
    deduct_of_selectRow_some hsel⟩

/-- C3: on every successful deduction, `deduct_stock_item` decrements the
quantity of the chosen row by exactly the requested amount, appends the
operation description to the notes of that row, stamps the modifier and the
modification timestamp, and returns success with a confirmation message. -/
theorem claim_C3 (stok : List StokRow) (audit : AuditFields) (k : String)
    (q : ℚ) (d : String)
    (hs : (deduct_stock_item stok audit k q d).success = true) :
    ∃ item, selectRow stok k q = some item ∧ item ∈ stok ∧
      (deduct_stock_item stok audit k q d).message =
        successMessage q item.birim item.malzeme_adi ∧
      ∃ r2 ∈ (deduct_stock_item stok audit k q d).stok,
        r2.id = item.id ∧ r2.miktar = item.miktar - q ∧
        r2.notlar = some (appendNote item.notlar d) ∧
        r2.modified_by = audit.modified_by ∧
        r2.modified_at = audit.modified_at := by
  obtain ⟨item, hsel⟩ := deduct_success_iff.mp hs
  have hm := (selectRow_mem hsel).1
  rw [deduct_of_selectRow_some hsel]
  refine ⟨item, hsel, hm, rfl, applyDeduct audit item q d item,
    List.mem_map.mpr ⟨item, hm, rfl⟩, ?_⟩
  simp [applyDeduct]

/-- C4: on every failed deduction (no row of the category has sufficient
quantity), `deduct_stock_item` mutates no inventory row and returns failure
with a message naming the (lower-cased) category and the required amount. -/
theorem claim_C4 (stok : List StokRow) (audit : AuditFields) (k : String)
    (q : ℚ) (d : String)
    (h : ∀ r ∈ stok, r.kategori = k → r.miktar < q) :
    (deduct_stock_item stok audit k q d).success = false ∧
    (deduct_stock_item stok audit k q d).stok = stok ∧
    ∃ a b c, (deduct_stock_item stok audit k q d).message =
      a ++ k.toLower ++ b ++ toString q ++ c := by
  rw [deduct_of_selectRow_none (selectRow_eq_none_iff.mpr h)]
  exact ⟨rfl, rfl, "Yetersiz ", " stoku (gerekli: ", ")", rfl⟩

/-- C5: `batch_deduct_stock` applies the deductions in list order, stops at
the first failing deduction, returns failure with the per-entry results up
to and including that failure, and leaves the deductions applied earlier in
the batch in place (the resulting table is exactly the table produced by the
successful prefix). -/
theorem claim_C5 (audit : AuditFields) (stok : List StokRow)
    (ds1 : List (String × ℚ × String)) (k : String) (q : ℚ) (d : String)
    (ds2 : List (String × ℚ × String)) (hq : 0 < q)
    (h1 : (batch_deduct_stock audit stok ds1).success = true)
    (h2 : (deduct_stock_item (batch_deduct_stock audit stok ds1).stok
        audit k q d).success = false) :
    batch_deduct_stock audit stok (ds1 ++ (k, q, d) :: ds2) =
      ⟨false,
       (batch_deduct_stock audit stok ds1).results ++
         [(false,
           (deduct_stock_item (batch_deduct_stock audit stok ds1).stok
             audit k q d).message)],
       (batch_deduct_stock audit stok ds1).stok⟩ := by
  rw [batch_append h1, batch_cons_fail hq h2, deduct_stok_of_fail h2]

/-- C6: a batch entry whose requested quantity is zero or negative is
skipped: running the batch with the entry equals running it without the
entry — it mutates nothing, produces no result entry (so it is not a
failure), and the remaining entries are still processed. -/
theorem claim_C6 (audit : AuditFields) (k : String) (q : ℚ) (d : String)
    (ds2 : List (String × ℚ × String)) (hq : q ≤ 0) :
    ∀ (stok : List StokRow) (ds1 : List (String × ℚ × String)),
      batch_deduct_stock audit stok (ds1 ++ (k, q, d) :: ds2) =
        batch_deduct_stock audit stok (ds1 ++ ds2) := by
  intro stok ds1
  induction ds1 generalizing stok with
  | nil => exact batch_cons_skip (not_lt.mpr hq)
  | cons x tl ih =>
      obtain ⟨k0, q0, d0⟩ := x
      rw [List.cons_append, List.cons_append]
      by_cases hq0 : 0 < q0
      · by_cases hs : (deduct_stock_item stok audit k0 q0 d0).success = true
        · rw [batch_cons_pos hq0 hs, batch_cons_pos hq0 hs, ih]
        · rw [batch_cons_fail hq0 (deduct_success_false hs),
            batch_cons_fail hq0 (deduct_success_false hs)]
      · rw [batch_cons_skip hq0, batch_cons_skip hq0, ih]

/-- C7: within one batch, two deductions against the same category are
evaluated sequentially: the batch `[(c,q1,d1), (c,q2,d2)]` behaves exactly
like `deduct_stock_item` for `q1` followed by `deduct_stock_item` for `q2`
on the updated table — the second selection already sees the first
decrement. -/
theorem claim_C7 (audit : AuditFields) (stok : List StokRow) (c : String)
    (q1 q2 : ℚ) (d1 d2 : String) (h1 : 0 < q1) (h2 : 0 < q2)
    (hs : (deduct_stock_item stok audit c q1 d1).success = true) :
    batch_deduct_stock audit stok [(c, q1, d1), (c, q2, d2)] =
      ⟨(deduct_stock_item (deduct_stock_item stok audit c q1 d1).stok
          audit c q2 d2).success,
       [(true, (deduct_stock_item stok audit c q1 d1).message),
        ((deduct_stock_item (deduct_stock_item stok audit c q1 d1).stok
            audit c q2 d2).success,
         (deduct_stock_item (deduct_stock_item stok audit c q1 d1).stok
            audit c q2 d2).message)],
       (deduct_stock_item (deduct_stock_item stok audit c q1 d1).stok
          audit c q2 d2).stok⟩ := by
  rw [show ([(c, q1, d1), (c, q2, d2)] : List (String × ℚ × String)) =
      (c, q1, d1) :: [(c, q2, d2)] from rfl,
    batch_cons_pos h1 hs]
  by_cases hs2 : (deduct_stock_item (deduct_stock_item stok audit c q1 d1).stok
      audit c q2 d2).success = true
  · rw [batch_cons_pos h2 hs2, batch_nil, hs2]
  · rw [batch_cons_fail h2 (deduct_success_false hs2),
      deduct_success_false hs2]

/-- C8: an irrigation submission of type "Gübreli" with a positive chemical
amount and a named chemical, for which no row of the "Gübre" stock category
has sufficient quantity, creates no `sulama` record and leaves every stock
row unchanged (the transaction is rolled back). -/
theorem claim_C8 (db : DB) (auditC : AuditCreate) (f : SulamaForm)
    (ht : f.sulama_turu = "Gübreli") (hg : 0 < f.gubre_miktari)
    (hk : f.gubre_kimyasal ≠ "")
    (hins : ∀ r ∈ db.stok, r.kategori = "Gübre" →
      r.miktar < f.gubre_miktari) :
    (sulama_post db auditC f).1.sulama = db.sulama ∧
    (sulama_post db auditC f).1.stok = db.stok := by
  unfold sulama_post
  by_cases hv : f.sera_adi = "" ∨ f.personel = "" ∨ f.tarih = "" ∨
      f.miktar ≤ 0
  · rw [if_pos hv]
    exact ⟨rfl, rfl⟩
  · rw [if_neg hv]
    have hded : sulamaDeductions f =
        [("Gübre", f.gubre_miktari, sulamaDesc f)] := by
      unfold sulamaDeductions
      rw [if_pos ⟨hg, hk⟩, if_pos ht]
    have hdf : (deduct_stock_item db.stok
        ⟨auditC.modified_by, auditC.modified_at⟩ "Gübre" f.gubre_miktari
        (sulamaDesc f)).success = false := by
      rw [deduct_of_selectRow_none (selectRow_eq_none_iff.mpr hins)]
    have hfail : (batch_deduct_stock ⟨auditC.modified_by, auditC.modified_at⟩
        db.stok (sulamaDeductions f)).success = false := by
      rw [hded, batch_cons_fail hg hdf]
    refine ⟨?_, ?_⟩ <;> simp [hfail]

/-- C9 counterexample: starting from an empty (hence non-negative) inventory,
a single `/stok` POST submitting a negative quantity creates a row whose
quantity is negative — the handler never validates the sign of the
submitted amount, so the claimed invariant fails at the public interface. -/
theorem claim_C9_cex :
    StokNonneg [] ∧
    ¬ StokNonneg (applyOp []
      (Op.post ⟨"admin", "admin", "2024-01-01 00:00:00"⟩ "2024-01-01"
        ⟨"Torf", "Gübre", -1, "kg", "D1", 0, 0, "", "ekle"⟩)) := by
  constructor
  · intro r hr
    cases hr
  · decide

/-- C9 (amended): provided every `/stok` POST in the sequence submits a
non-negative quantity, the quantity of every inventory row stays
non-negative under any sequence of public-interface operations;
`deduct_stock_item` and `batch_deduct_stock` preserve non-negativity
unconditionally, and the `cikar` branch rejects any removal that would go
negative. -/
theorem claim_C9 : ∀ (stok : List StokRow) (ops : List Op),
    StokNonneg stok → (∀ op ∈ ops, OpOK op) →
    StokNonneg (ops.foldl applyOp stok)
  | _, [], h0, _ => h0
  | stok, op :: tl, h0, hops => by
      rw [List.foldl_cons]
      exact claim_C9 (applyOp stok op) tl
        (applyOp_nonneg h0 (hops op (List.mem_cons_self _ _)))
        fun o ho => hops o (List.mem_cons_of_mem _ ho)

/-- C10 (frame property): on every successful call, `deduct_stock_item`
modifies only the single selected row — the table keeps its length, every
row whose id differs from the selected one is unchanged, at most one
position carries the selected id, and at that position only `miktar`
(decremented by the request), `notlar` (description appended with a "; "
separator when non-empty, or becoming the notes value when empty or null),
`modified_by` and `modified_at` change, every other field being kept. -/
theorem claim_C10 (stok : List StokRow) (audit : AuditFields) (k : String)
    (q : ℚ) (d : String) (hn : (stok.map StokRow.id).Nodup)
    (hs : (deduct_stock_item stok audit k q d).success = true) :
    ∃ item, selectRow stok k q = some item ∧ item ∈ stok ∧
      (deduct_stock_item stok audit k q d).stok.length = stok.length ∧
      (∀ i, (hi : i < stok.length) →
        (hi2 : i < (deduct_stock_item stok audit k q d).stok.length) →
        ((stok.get ⟨i, hi⟩).id ≠ item.id →
          (deduct_stock_item stok audit k q d).stok.get ⟨i, hi2⟩ =
            stok.get ⟨i, hi⟩) ∧
        ((stok.get ⟨i, hi⟩).id = item.id →
          (deduct_stock_item stok audit k q d).stok.get ⟨i, hi2⟩ =
            { stok.get ⟨i, hi⟩ with
              miktar := (stok.get ⟨i, hi⟩).miktar - q
              notlar := some (appendNote (stok.get ⟨i, hi⟩).notlar d)
              modified_by := audit.modified_by
              modified_at := audit.modified_at })) ∧
      (∀ i j, (hi : i < stok.length) → (hj : j < stok.length) →
        (stok.get ⟨i, hi⟩).id = item.id → (stok.get ⟨j, hj⟩).id = item.id →
        i = j) := by
  obtain ⟨item, hsel⟩ := deduct_success_iff.mp hs
  have hmem := (selectRow_mem hsel).1
  refine ⟨item, hsel, hmem, ?_, ?_, ?_⟩
  · rw [deduct_of_selectRow_some hsel]
    exact List.length_map stok _
  · intro i hi hi2
    have hstok : (deduct_stock_item stok audit k q d).stok =
        stok.map (applyDeduct audit item q d) := by
      rw [deduct_of_selectRow_some hsel]
    have hget : (deduct_stock_item stok audit k q d).stok.get ⟨i, hi2⟩ =
        applyDeduct audit item q d (stok.get ⟨i, hi⟩) := by
      simp only [List.get_eq_getElem]
      rw [List.getElem_of_eq hstok hi2, List.getElem_map]
    rw [hget]
    constructor
    · intro hne
      exact applyDeduct_of_id_ne hne
    · intro heq
      have hrow : stok.get ⟨i, hi⟩ = item :=
        row_eq_of_id_eq hn (stok.get_mem _ _) hmem heq
      unfold applyDeduct
      rw [if_pos heq, hrow]
  · intro i j hi hj hiid hjid
    exact id_index_unique hn hi hj (hiid.trans hjid.symm)

/-! ### Concrete sample data for the witnesses (the worked example of the
specification: category Gübre with rows of 50 and 30 units). -/

def sampleStok : List StokRow :=
  [⟨1, "Gubre A", "Gübre", 50, "kg", "2024-01-01", "D1", 0, 0, none, "u", "u", "t"⟩,
   ⟨2, "Gubre B", "Gübre", 30, "kg", "2024-02-01", "D1", 0, 0, none, "u", "u", "t"⟩]

def sampleStok2 : List StokRow :=
  [⟨1, "Gubre A", "Gübre", 30, "kg", "2024-01-01", "D1", 0, 0, none, "u", "u", "t"⟩,
   ⟨2, "Gubre B", "Gübre", 20, "kg", "2024-02-01", "D1", 0, 0, none, "u", "u", "t"⟩,
   ⟨3, "Pestisit A", "Pestisit", 10, "kg", "2024-01-05", "D1", 0, 0, none, "u", "u", "t"⟩]

def sampleAudit : AuditFields := ⟨"admin", "2024-03-01 10:00:00"⟩

def sampleAuditC : AuditCreate := ⟨"admin", "admin", "2024-03-01 10:00:00"⟩

def sampleOps : List Op :=
  [Op.post sampleAuditC "2024-03-02" ⟨"Torf", "Gübre", 5, "kg", "D1", 0, 0, "", "ekle"⟩,
   Op.deduct sampleAudit "Gübre" 40 "op",
   Op.batch sampleAudit [("Gübre", 30, "op2")]]

def sampleDB : DB := ⟨sampleStok, []⟩

def sampleSulamaForm : SulamaForm :=
  ⟨"2024-03-01", "10:00", "Sera 1", "Gübreli", 100, "Azot", 100, "Ali", ""⟩

/-- C1 witness: deducting 40 from the sample Gübre stock (rows of 50 and 30). -/
theorem claim_C1_witness :
    ((sampleStok.map StokRow.id).Nodup ∧ (0 : ℚ) < 40) ∧
    (((∃ r ∈ sampleStok, r.kategori = "Gübre" ∧ (40 : ℚ) ≤ r.miktar) →
        (deduct_stock_item sampleStok sampleAudit "Gübre" 40 "op").success = true ∧
        categoryTotal (deduct_stock_item sampleStok sampleAudit "Gübre" 40 "op").stok
            "Gübre" = categoryTotal sampleStok "Gübre" - 40) ∧
      ((∀ r ∈ sampleStok, r.kategori = "Gübre" → r.miktar < 40) →
        (deduct_stock_item sampleStok sampleAudit "Gübre" 40 "op").success = false ∧
        (deduct_stock_item sampleStok sampleAudit "Gübre" 40 "op").stok = sampleStok)) :=
  ⟨⟨by decide, by decide⟩,
   claim_C1 sampleStok sampleAudit "Gübre" 40 "op" (by decide) (by decide)⟩

/-- C2 witness: of the two sufficient sample rows the one dated 2024-01-01
is selected. -/
theorem claim_C2_witness :
    (∃ r ∈ sampleStok, r.kategori = "Gübre" ∧ (30 : ℚ) ≤ r.miktar) ∧
    (∃ r, selectRow sampleStok "Gübre" 30 = some r ∧ r ∈ sampleStok ∧
      r.kategori = "Gübre" ∧ (30 : ℚ) ≤ r.miktar ∧
      (∀ c ∈ sampleStok, c.kategori = "Gübre" → (30 : ℚ) ≤ c.miktar →
        r.tarih ≤ c.tarih) ∧
      deduct_stock_item sampleStok sampleAudit "Gübre" 30 "op" =
        ⟨true, successMessage 30 r.birim r.malzeme_adi,
          sampleStok.map (applyDeduct sampleAudit r 30 "op")⟩) :=
  ⟨by decide, claim_C2 sampleStok sampleAudit "Gübre" 30 "op" (by decide)⟩

/-- C3 witness: the successful deduction of 40 updates the selected row. -/
theorem claim_C3_witness :
    (deduct_stock_item sampleStok sampleAudit "Gübre" 40 "op").success = true ∧
    (∃ item, selectRow sampleStok "Gübre" 40 = some item ∧ item ∈ sampleStok ∧
      (deduct_stock_item sampleStok sampleAudit "Gübre" 40 "op").message =
        successMessage 40 item.birim item.malzeme_adi ∧
      ∃ r2 ∈ (deduct_stock_item sampleStok sampleAudit "Gübre" 40 "op").stok,
        r2.id = item.id ∧ r2.miktar = item.miktar - 40 ∧
        r2.notlar = some (appendNote item.notlar "op") ∧
        r2.modified_by = sampleAudit.modified_by ∧
        r2.modified_at = sampleAudit.modified_at) :=
  ⟨by decide, claim_C3 sampleStok sampleAudit "Gübre" 40 "op" (by decide)⟩

/-- C4 witness: requesting 100 exceeds both sample rows, so the deduction
fails without mutation. -/
theorem claim_C4_witness :
    (∀ r ∈ sampleStok, r.kategori = "Gübre" → r.miktar < 100) ∧
    ((deduct_stock_item sampleStok sampleAudit "Gübre" 100 "op").success = false ∧
     (deduct_stock_item sampleStok sampleAudit "Gübre" 100 "op").stok = sampleStok ∧
     ∃ a b c, (deduct_stock_item sampleStok sampleAudit "Gübre" 100 "op").message =
       a ++ "Gübre".toLower ++ b ++ toString (100 : ℚ) ++ c) :=
  ⟨by decide, claim_C4 sampleStok sampleAudit "Gübre" 100 "op" (by decide)⟩

/-- C5 witness: a successful Pestisit deduction followed by a failing Gübre
deduction stops the batch, keeps the Pestisit decrement, and never reaches
the third entry. -/
theorem claim_C5_witness :
    ((0 : ℚ) < 40 ∧
     (batch_deduct_stock sampleAudit sampleStok2 [("Pestisit", 5, "op1")]).success = true ∧
     (deduct_stock_item
        (batch_deduct_stock sampleAudit sampleStok2 [("Pestisit", 5, "op1")]).stok
        sampleAudit "Gübre" 40 "op2").success = false) ∧
    batch_deduct_stock sampleAudit sampleStok2
        ([("Pestisit", 5, "op1")] ++ ("Gübre", 40, "op2") :: [("Gübre", 1, "op3")]) =
      ⟨false,
       (batch_deduct_stock sampleAudit sampleStok2 [("Pestisit", 5, "op1")]).results ++
         [(false,
           (deduct_stock_item
             (batch_deduct_stock sampleAudit sampleStok2 [("Pestisit", 5, "op1")]).stok
             sampleAudit "Gübre" 40 "op2").message)],
       (batch_deduct_stock sampleAudit sampleStok2 [("Pestisit", 5, "op1")]).stok⟩ :=
  ⟨⟨by decide, by decide, by decide⟩,
   claim_C5 sampleAudit sampleStok2 [("Pestisit", 5, "op1")] "Gübre" 40 "op2"
     [("Gübre", 1, "op3")] (by decide) (by decide) (by decide)⟩

/-- C6 witness: a zero-quantity entry in the middle of a batch is skipped. -/
theorem claim_C6_witness :
    ((0 : ℚ) ≤ 0) ∧
    batch_deduct_stock sampleAudit sampleStok
        ([("Gübre", (40 : ℚ), "op1")] ++ ("Pestisit", 0, "skip") :: [("Gübre", 30, "op2")]) =
      batch_deduct_stock sampleAudit sampleStok
        ([("Gübre", (40 : ℚ), "op1")] ++ [("Gübre", 30, "op2")]) :=
  ⟨by decide,
   claim_C6 sampleAudit "Pestisit" 0 "skip" [("Gübre", 30, "op2")] (by decide)
     sampleStok [("Gübre", (40 : ℚ), "op1")]⟩

/-- C7 witness: the batch deducting 40 and then 30 from Gübre equals the two
sequential single deductions. -/
theorem claim_C7_witness :
    ((0 : ℚ) < 40 ∧ (0 : ℚ) < 30 ∧
     (deduct_stock_item sampleStok sampleAudit "Gübre" 40 "op1").success = true) ∧
    batch_deduct_stock sampleAudit sampleStok [("Gübre", 40, "op1"), ("Gübre", 30, "op2")] =
      ⟨(deduct_stock_item (deduct_stock_item sampleStok sampleAudit "Gübre" 40 "op1").stok
          sampleAudit "Gübre" 30 "op2").success,
       [(true, (deduct_stock_item sampleStok sampleAudit "Gübre" 40 "op1").message),
        ((deduct_stock_item (deduct_stock_item sampleStok sampleAudit "Gübre" 40 "op1").stok
            sampleAudit "Gübre" 30 "op2").success,
         (deduct_stock_item (deduct_stock_item sampleStok sampleAudit "Gübre" 40 "op1").stok
            sampleAudit "Gübre" 30 "op2").message)],
       (deduct_stock_item (deduct_stock_item sampleStok sampleAudit "Gübre" 40 "op1").stok
          sampleAudit "Gübre" 30 "op2").stok⟩ :=
  ⟨⟨by decide, by decide, by decide⟩,
   claim_C7 sampleAudit sampleStok "Gübre" 40 30 "op1" "op2" (by decide) (by decide)
     (by decide)⟩

/-- C8 witness: a Gübreli irrigation requesting 100 units of Gübre against
stock rows of 50 and 30 is rejected without touching the database. -/
theorem claim_C8_witness :
    (sampleSulamaForm.sulama_turu = "Gübreli" ∧
     (0 : ℚ) < sampleSulamaForm.gubre_miktari ∧
     sampleSulamaForm.gubre_kimyasal ≠ "" ∧
     (∀ r ∈ sampleDB.stok, r.kategori = "Gübre" →
       r.miktar < sampleSulamaForm.gubre_miktari)) ∧
    ((sulama_post sampleDB sampleAuditC sampleSulamaForm).1.sulama =
      sampleDB.sulama ∧
     (sulama_post sampleDB sampleAuditC sampleSulamaForm).1.stok = sampleDB.stok) :=
  ⟨⟨by decide, by decide, by decide, by decide⟩,
   claim_C8 sampleDB sampleAuditC sampleSulamaForm (by decide) (by decide)
     (by decide) (by decide)⟩

/-- C9 witness: a sequence of one insertion, one single deduction and one
batch deduction, all with non-negative submitted quantities, keeps the
sample inventory non-negative. -/
theorem claim_C9_witness :
    (StokNonneg sampleStok ∧ (∀ op ∈ sampleOps, OpOK op)) ∧
    StokNonneg (sampleOps.foldl applyOp sampleStok) :=
  ⟨⟨by decide, by decide⟩, claim_C9 sampleStok sampleOps (by decide) (by decide)⟩

/-- C10 witness: the successful deduction of 40 from the sample stock
touches only the selected row. -/
theorem claim_C10_witness :
    ((sampleStok.map StokRow.id).Nodup ∧
     (deduct_stock_item sampleStok sampleAudit "Gübre" 40 "op").success = true) ∧
    (∃ item, selectRow sampleStok "Gübre" 40 = some item ∧ item ∈ sampleStok ∧
      (deduct_stock_item sampleStok sampleAudit "Gübre" 40 "op").stok.length =
        sampleStok.length ∧
      (∀ i, (hi : i < sampleStok.length) →
        (hi2 : i < (deduct_stock_item sampleStok sampleAudit "Gübre" 40 "op").stok.length) →
        ((sampleStok.get ⟨i, hi⟩).id ≠ item.id →
          (deduct_stock_item sampleStok sampleAudit "Gübre" 40 "op").stok.get ⟨i, hi2⟩ =
            sampleStok.get ⟨i, hi⟩) ∧
        ((sampleStok.get ⟨i, hi⟩).id = item.id →
          (deduct_stock_item sampleStok sampleAudit "Gübre" 40 "op").stok.get ⟨i, hi2⟩ =
            { sampleStok.get ⟨i, hi⟩ with
              miktar := (sampleStok.get ⟨i, hi⟩).miktar - 40
              notlar := some (appendNote (sampleStok.get ⟨i, hi⟩).notlar "op")
              modified_by := sampleAudit.modified_by
              modified_at := sampleAudit.modified_at })) ∧
      (∀ i j, (hi : i < sampleStok.length) → (hj : j < sampleStok.length) →
        (sampleStok.get ⟨i, hi⟩).id = item.id →
        (sampleStok.get ⟨j, hj⟩).id = item.id → i = j)) :=
  ⟨⟨by decide, by decide⟩,
   claim_C10 sampleStok sampleAudit "Gübre" 40 "op" (by decide) (by decide)⟩

end FarmFlow
